import Mathlib

/-!
Verification of the gtj-scraper TrustScore calculator and UCC filing
normalizer.  The definitions below are a shallow embedding of
`src/backend/src/trustscore/calculator.py` and
`src/backend/src/scoring/ucc-filings-flow/ucc_normalizer.py`:
strings are Lean `String`s, Python floats are `ℝ`, Python ints are `ℤ`/`ℕ`,
fallible parsing returns `Option`, and `datetime.now(timezone.utc)` is an
explicit parameter (seconds since the epoch).
-/

namespace GtjScraper

/-! ## Basic string helpers (Python `str` methods) -/

/-- Python `c.isdigit()` restricted to ASCII, as used by `int(...)` parsing. -/
def isDig (c : Char) : Bool := 48 ≤ c.toNat ∧ c.toNat ≤ 57

/-- Python `str.lower()` (character-wise lowering). -/
def pyLower (s : String) : String := String.mk (s.data.map Char.toLower)

/-- Python `str.capitalize()`: first character upper-cased, the rest lowered. -/
def pyCapitalize (s : String) : String :=
  match s.data with
  | [] => ""
  | c :: rest => String.mk (c.toUpper :: rest.map Char.toLower)

/-- Contiguous-sublist test, executable form of `List.IsInfix`. -/
def listInfix (a : List Char) : List Char → Bool
  | [] => a.isEmpty
  | c :: rest => a.isPrefixOf (c :: rest) || listInfix a rest

/-- Python substring test `sub in s`. -/
def substrOf (sub s : String) : Bool := listInfix sub.data s.data

/-- Python `str.strip()`: leading and trailing whitespace removed. -/
def pyStrip (s : String) : String :=
  String.mk (((s.data.dropWhile Char.isWhitespace).reverse.dropWhile
    Char.isWhitespace).reverse)

/-- Fuel-bounded body of `str.replace`: the fuel is the input length, enough
for every step to consume at least one character. -/
def replaceFuel (old new : List Char) : ℕ → List Char → List Char
  | 0, l => l
  | _ + 1, [] => []
  | fuel + 1, c :: rest =>
    if old.isPrefixOf (c :: rest) then
      new ++ replaceFuel old new fuel ((c :: rest).drop old.length)
    else c :: replaceFuel old new fuel rest

/-- Python `s.replace(old, new)` for non-empty `old` (the only use here is
replacing `"Z"` with `"+00:00"`). -/
def pyReplace (s old new : String) : String :=
  if old.data.isEmpty then s
  else String.mk (replaceFuel old.data new.data s.data.length s.data)

/-- Split a character list at every occurrence of a separator character. -/
def splitChar (c : Char) (l : List Char) : List (List Char) :=
  l.foldr (fun x acc =>
    if x = c then [] :: acc
    else
      match acc with
      | [] => [[x]]
      | a :: as => (x :: a) :: as) [[]]

/-- Python `s.split(sep)` for a one-character separator. -/
def pySplitOnChar (s : String) (c : Char) : List String :=
  (splitChar c s.data).map String.mk

/-- Numeric value of a list of ASCII digit characters (most significant first). -/
def digitsToNat (l : List Char) : ℕ := l.foldl (fun a c => a * 10 + (c.toNat - 48)) 0

/-- Digit-sequence value: `some` only for a non-empty all-digit list. -/
def digitsVal (l : List Char) : Option ℕ :=
  if l ≠ [] ∧ l.all isDig then some (digitsToNat l) else none

/-- Python `int(str)` on a character list: optional sign followed by digits.
(Surrounding whitespace, underscores and non-ASCII digits are not modelled.) -/
def pyIntOfChars (l : List Char) : Option ℤ :=
  match l with
  | '-' :: rest => (digitsVal rest).map (fun v => -(v : ℤ))
  | '+' :: rest => (digitsVal rest).map (fun v => (v : ℤ))
  | _ => (digitsVal l).map (fun v => (v : ℤ))

/-- Zero-padded 2-digit decimal rendering, Python `f"{n:02d}"`. -/
def pad2 (n : ℕ) : String :=
  if n < 100 then String.mk [Nat.digitChar (n / 10 % 10), Nat.digitChar (n % 10)]
  else toString n

/-- Zero-padded 4-digit decimal rendering, Python `f"{n:04d}"`. -/
def pad4 (n : ℕ) : String :=
  if n < 10000 then
    String.mk [Nat.digitChar (n / 1000 % 10), Nat.digitChar (n / 100 % 10),
               Nat.digitChar (n / 10 % 10), Nat.digitChar (n % 10)]
  else toString n

/-- Rendering of a date as `YYYY-MM-DD`, the shape produced by
`f"{year:04d}-{month:02d}-{day:02d}"` and by `strftime("%Y-%m-%d")`. -/
def formatISO (y m d : ℕ) : String := pad4 y ++ "-" ++ pad2 m ++ "-" ++ pad2 d

/-- A string is ISO-formatted when it is the canonical `YYYY-MM-DD` rendering
of a plausible calendar date. -/
def ISOShaped (s : String) : Prop :=
  ∃ y m d : ℕ, y ≤ 9999 ∧ 1 ≤ m ∧ m ≤ 12 ∧ 1 ≤ d ∧ d ≤ 31 ∧ s = formatISO y m d

/-! ## Calendar helpers (Python `datetime` validation) -/

def isLeap (y : ℕ) : Bool := (y % 4 = 0 ∧ y % 100 ≠ 0) ∨ y % 400 = 0

def daysInMonth (y m : ℕ) : ℕ :=
  if m = 2 then (if isLeap y then 29 else 28)
  else if m = 4 ∨ m = 6 ∨ m = 9 ∨ m = 11 then 30
  else 31

/-! ## Python datetime values

`PyDateTime` models the result of `datetime` construction.  `tzOffsetMinutes`
is `none` for a naive datetime and `some off` for an aware one. -/

structure PyDateTime where
  year : ℕ
  month : ℕ
  day : ℕ
  hour : ℕ := 0
  minute : ℕ := 0
  second : ℕ := 0
  tzOffsetMinutes : Option ℤ := none
deriving DecidableEq

/-- Validation performed by `datetime.__new__`: month 1-12, day within the
month, year at least `MINYEAR = 1`. -/
def validDate (y m d : ℕ) : Option (ℕ × ℕ × ℕ) :=
  if 1 ≤ y ∧ 1 ≤ m ∧ m ≤ 12 ∧ 1 ≤ d ∧ d ≤ daysInMonth y m then some (y, m, d)
  else none

/-- Date part of `datetime.fromisoformat`: exactly `YYYY-MM-DD` with a
validity check mirroring `datetime.__new__`. -/
def parseISODatePart (l : List Char) : Option (ℕ × ℕ × ℕ) :=
  match l with
  | [y1, y2, y3, y4, '-', m1, m2, '-', d1, d2] =>
    if [y1, y2, y3, y4, m1, m2, d1, d2].all isDig then
      validDate (digitsToNat [y1, y2, y3, y4]) (digitsToNat [m1, m2]) (digitsToNat [d1, d2])
    else none
  | _ => none

/-- Time-of-day part `HH[:MM[:SS[.fff[fff]]]]` accepted by `fromisoformat`
(the fractional digits are validated but their value is not retained). -/
def parseHMS (l : List Char) : Option (ℕ × ℕ × ℕ) :=
  match l with
  | [h1, h2] =>
    if [h1, h2].all isDig then
      let h := digitsToNat [h1, h2]
      if h ≤ 23 then some (h, 0, 0) else none
    else none
  | [h1, h2, ':', m1, m2] =>
    if [h1, h2, m1, m2].all isDig then
      let h := digitsToNat [h1, h2]
      let m := digitsToNat [m1, m2]
      if h ≤ 23 ∧ m ≤ 59 then some (h, m, 0) else none
    else none
  | [h1, h2, ':', m1, m2, ':', s1, s2] =>
    if [h1, h2, m1, m2, s1, s2].all isDig then
      let h := digitsToNat [h1, h2]
      let m := digitsToNat [m1, m2]
      let s := digitsToNat [s1, s2]
      if h ≤ 23 ∧ m ≤ 59 ∧ s ≤ 59 then some (h, m, s) else none
    else none
  | h1 :: h2 :: ':' :: m1 :: m2 :: ':' :: s1 :: s2 :: '.' :: frac =>
    if [h1, h2, m1, m2, s1, s2].all isDig ∧ frac.all isDig ∧
        (frac.length = 3 ∨ frac.length = 6) then
      let h := digitsToNat [h1, h2]
      let m := digitsToNat [m1, m2]
      let s := digitsToNat [s1, s2]
      if h ≤ 23 ∧ m ≤ 59 ∧ s ≤ 59 then some (h, m, s) else none
    else none
  | _ => none

/-- UTC-offset part `HH:MM` following a `+`/`-` sign, in minutes. -/
def parseOffset (l : List Char) : Option ℤ :=
  match l with
  | [h1, h2, ':', m1, m2] =>
    if [h1, h2, m1, m2].all isDig then
      let h := digitsToNat [h1, h2]
      let m := digitsToNat [m1, m2]
      if h ≤ 23 ∧ m ≤ 59 then some ((h : ℤ) * 60 + m) else none
    else none
  | _ => none

/-- Time together with an optional signed offset, e.g. `10:00:00+02:00`. -/
def parseTimeWithOffset (l : List Char) : Option (ℕ × ℕ × ℕ × Option ℤ) :=
  match l.findIdx? (fun c => c = '+' ∨ c = '-') with
  | none => (parseHMS l).map (fun t => (t.1, t.2.1, t.2.2, none))
  | some i =>
    match parseHMS (l.take i), parseOffset (l.drop (i + 1)) with
    | some (h, m, s), some off =>
      some (h, m, s, some (if l.get? i = some '-' then -off else off))
    | _, _ => none

/-- `datetime.fromisoformat` (CPython 3.10 behaviour): a 10-character date,
optionally followed by a single separator character and a time with an
optional UTC offset.  Returns `none` where CPython raises `ValueError`. -/
def fromisoformat (s : String) : Option PyDateTime :=
  match parseISODatePart (s.data.take 10) with
  | none => none
  | some (y, m, d) =>
    match s.data.drop 10 with
    | [] => some { year := y, month := m, day := d }
    | _sep :: rest =>
      match parseTimeWithOffset rest with
      | some (h, mi, sec, tz) =>
        some { year := y, month := m, day := d, hour := h, minute := mi,
               second := sec, tzOffsetMinutes := tz }
      | none => none

/-- `datetime.strptime(s, "%Y-%m-%d")`: 4-digit year, 1-2 digit month and
day, whole string consumed, then calendar validation. -/
def strptimeYMD (s : String) : Option (ℕ × ℕ × ℕ) :=
  match pySplitOnChar s '-' with
  | [ys, ms, ds] =>
    if ys.length = 4 ∧ ys.data.all isDig ∧
        1 ≤ ms.length ∧ ms.length ≤ 2 ∧ ms.data.all isDig ∧
        1 ≤ ds.length ∧ ds.length ≤ 2 ∧ ds.data.all isDig then
      validDate (digitsToNat ys.data) (digitsToNat ms.data) (digitsToNat ds.data)
    else none
  | _ => none

/-- `datetime.strptime(s, "%m/%d/%Y")`, returning `(year, month, day)`. -/
def strptimeMDY (s : String) : Option (ℕ × ℕ × ℕ) :=
  match pySplitOnChar s '/' with
  | [ms, ds, ys] =>
    if ys.length = 4 ∧ ys.data.all isDig ∧
        1 ≤ ms.length ∧ ms.length ≤ 2 ∧ ms.data.all isDig ∧
        1 ≤ ds.length ∧ ds.length ≤ 2 ∧ ds.data.all isDig then
      validDate (digitsToNat ys.data) (digitsToNat ms.data) (digitsToNat ds.data)
    else none
  | _ => none

/-! ## `TrustScoreCalculator._parse_date` -/

/-- `TrustScoreCalculator._parse_date`.  Empty/missing input gives `None`;
strings containing `T` go through `fromisoformat` (after replacing `Z` with
`+00:00`); otherwise `strptime("%Y-%m-%d")` is tried with the result made
UTC-aware, falling back to `fromisoformat`.  Any parse failure gives `None`
(the Python exception handlers return `None`), so the function is total. -/
def parseDate : Option String → Option PyDateTime
  | none => none
  | some s =>
    if s = "" then none
    else if s.data.contains 'T' then fromisoformat (pyReplace s "Z" "+00:00")
    else
      match strptimeYMD s with
      | some (y, m, d) =>
        some { year := y, month := m, day := d, tzOffsetMinutes := some 0 }
      | none => fromisoformat (pyReplace s "Z" "+00:00")

/-! ## `_normalize_date` (ucc_normalizer.py) -/

/-- `_normalize_date`: tries `fromisoformat` (after the `Z` replacement),
then `%m/%d/%Y`, then `%Y-%m-%d`, re-rendering any success as `YYYY-MM-DD`;
the raw string is returned unchanged when every parse fails. -/
def normalizeDate (s : String) : String :=
  if s = "" ∨ s = "Unknown" then "Unknown"
  else
    match fromisoformat (pyReplace s "Z" "+00:00") with
    | some dt => formatISO dt.year dt.month dt.day
    | none =>
      match strptimeMDY s with
      | some (y, m, d) => formatISO y m d
      | none =>
        match strptimeYMD s with
        | some (y, m, d) => formatISO y m d
        | none => s

/-! ## `_normalize_status` (ucc_normalizer.py) -/

/-- `_normalize_status`: canonicalizes a handful of case-insensitive status
variants and otherwise falls back to `status.capitalize()`. -/
def normalizeStatus (status : String) : String :=
  if status = "" then "Unknown"
  else
    let sl := pyStrip (pyLower status)
    if sl ∈ ["active", "filed", "current", "valid"] then "Active"
    else if sl ∈ ["lapsed", "expired", "inactive"] then "Lapsed"
    else if sl ∈ ["terminated", "cancelled", "discharged", "released"] then "Terminated"
    else pyCapitalize status

/-! ## `_extract_date_from_ucc_number` (ucc_normalizer.py) -/

/-- 2-digit year widening: `≥ 90` → 1900s, else 2000s. -/
def twoDigitFullYear (y2 : ℤ) : ℤ := if 90 ≤ y2 then 1900 + y2 else 2000 + y2

/-- Month-or-January rendering shared by the 2-digit-year branch: a month
parse failure falls back to January (the inner `except ValueError: pass`). -/
def uccMonthOr1 (year : ℤ) (mopt : Option ℤ) : String :=
  match mopt with
  | none => formatISO year.toNat 1 1
  | some mo =>
    if 1 ≤ mo ∧ mo ≤ 12 then formatISO year.toNat mo.toNat 1
    else formatISO year.toNat 1 1

/-- Month rendering of the 4-digit-year branch: here a month `int()` failure
propagates to the outer handler and yields `"Unknown"`. -/
def uccFourDigitMonth (year : ℤ) (mopt : Option ℤ) : String :=
  match mopt with
  | none => "Unknown"
  | some mo =>
    if 1 ≤ mo ∧ mo ≤ 12 then formatISO year.toNat mo.toNat 1
    else formatISO year.toNat 1 1

/-- Two-digit-year fallback branch of `_extract_date_from_ucc_number`:
the first two characters as a year, characters 2-3 as an optional month. -/
def uccTwoDigit (cs : List Char) : String :=
  match pyIntOfChars (cs.take 2) with
  | none => "Unknown"
  | some y2 =>
    if 4 ≤ cs.length then
      uccMonthOr1 (twoDigitFullYear y2) (pyIntOfChars ((cs.drop 2).take 2))
    else formatISO (twoDigitFullYear y2).toNat 1 1

/-- Character-level body of `_extract_date_from_ucc_number`: first the
4-digit-year interpretation (valid range 1990-2099, optional month in
characters 4-5), else the 2-digit-year fallback.  An `int()` failure inside
the outer `try` yields `"Unknown"`. -/
def uccDateOfChars (cs : List Char) : String :=
  if cs.length < 2 then "Unknown"
  else if 4 ≤ cs.length then
    match pyIntOfChars (cs.take 4) with
    | none => "Unknown"
    | some year =>
      if 1990 ≤ year ∧ year ≤ 2099 then
        if 6 ≤ cs.length then uccFourDigitMonth year (pyIntOfChars ((cs.drop 4).take 2))
        else formatISO year.toNat 1 1
      else uccTwoDigit cs
  else uccTwoDigit cs

/-- `_extract_date_from_ucc_number`. -/
def extractDateFromUccNumber (ucc : String) : String := uccDateOfChars ucc.data

/-! ## Raw shapes consumed by the normalizer

Python passes free-form dicts; the fields the normalizer reads are modelled
as optional fields, with `Option.getD` standing for `dict.get(key, default)`. -/

structure RawDebtor where
  name : Option String := none
  uccNumber : Option String := none
  status : Option String := none
  address : Option String := none
  city : Option String := none
  state : Option String := none
  zipCode : Option String := none
deriving DecidableEq

structure RawFiling where
  file_number : Option String := none
  debtor_name : Option String := none
  debtor : Option String := none
  filing_date : Option String := none
  status : Option String := none
  secured_party : Option String := none
  collateral : Option String := none
deriving DecidableEq

structure UccPayload where
  debtors : List RawDebtor := []
deriving DecidableEq

structure UccRawResponse where
  payload : UccPayload := {}
deriving DecidableEq

structure FlowResult where
  raw_response : UccRawResponse := {}
  filings : List RawFiling := []
deriving DecidableEq

structure NormalizedFiling where
  filing_date : String
  status : String
  debtor_name : String
  file_number : Option String
  address : Option String := none
  secured_party : Option String
  collateral : Option String
deriving DecidableEq

/-- Loop body of `_normalize_florida`: one debtor of the compact API payload
becomes one normalized filing, with the filing date recovered from the UCC
number. -/
def floridaRecord (debtor : RawDebtor) : NormalizedFiling :=
  let ucc := debtor.uccNumber.getD ""
  let parts := [debtor.address.getD "", debtor.city.getD "",
                debtor.state.getD "", debtor.zipCode.getD ""]
  { filing_date := extractDateFromUccNumber ucc
    status := normalizeStatus (debtor.status.getD "Unknown")
    debtor_name := debtor.name.getD "Unknown"
    file_number := some ucc
    address := some (pyStrip (String.intercalate ", " (parts.filter (· ≠ ""))))
    secured_party := none
    collateral := none }

/-- `_normalize_florida`. -/
def normalizeFlorida (flow : FlowResult) : List NormalizedFiling :=
  flow.raw_response.payload.debtors.map floridaRecord

/-- Loop body of `_normalize_generic`: a per-filing record with explicit
fields.  The raw date is only normalized when it is truthy and not already
`"Unknown"`. -/
def genericRecord (filing : RawFiling) : NormalizedFiling :=
  let rawDate := filing.filing_date.getD "Unknown"
  { filing_date :=
      if rawDate ≠ "" ∧ rawDate ≠ "Unknown" then normalizeDate rawDate else rawDate
    status := normalizeStatus (filing.status.getD "Unknown")
    debtor_name := filing.debtor_name.getD (filing.debtor.getD "Unknown")
    file_number := filing.file_number
    secured_party := filing.secured_party
    collateral := filing.collateral }

/-- `_normalize_generic`. -/
def normalizeGeneric (flow : FlowResult) : List NormalizedFiling :=
  flow.filings.map genericRecord

/-- `normalize_ucc_filings`: dispatch on the source state. -/
def normalizeUccFilings (flow : FlowResult) (state : String) : List NormalizedFiling :=
  if state = "Florida" then normalizeFlorida flow else normalizeGeneric flow

/-! ## Epoch arithmetic for datetimes

`datetime` subtraction is modelled through seconds since an epoch.  Naive
datetimes are treated as UTC (CPython would raise on mixed-awareness
subtraction; the scoring pipeline only ever compares parsed dates with
`datetime.now(timezone.utc)`). -/

/-- Days from the civil epoch 1970-01-01 (standard `days_from_civil`). -/
def daysFromCivil (y m d : ℤ) : ℤ :=
  let y := if m ≤ 2 then y - 1 else y
  let era := Int.fdiv y 400
  let yoe := y - era * 400
  let mp := Int.fmod (m + 9) 12
  let doy := Int.fdiv (153 * mp + 2) 5 + d - 1
  let doe := yoe * 365 + Int.fdiv yoe 4 - Int.fdiv yoe 100 + doy
  era * 146097 + doe - 719468

/-- Seconds since the epoch of a `PyDateTime` (UTC for naive values). -/
def toEpochSeconds (dt : PyDateTime) : ℤ :=
  daysFromCivil dt.year dt.month dt.day * 86400 +
    dt.hour * 3600 + dt.minute * 60 + dt.second -
    (dt.tzOffsetMinutes.getD 0) * 60

/-- `(now - dt).days / 365.25` where `timedelta.days` floors. -/
noncomputable def deltaYears (now : ℤ) (dt : PyDateTime) : ℝ :=
  ((Int.fdiv (now - toEpochSeconds dt) 86400 : ℤ) : ℝ) / 365.25

/-! ## TrustScore calculator inputs -/

structure PyEvent where
  event_type : Option String := none
  injury_level : Option String := none
  severity : Option String := none
  event_date : Option String := none
deriving DecidableEq

structure PyUccFiling where
  filing_date : Option String := none
  status : Option String := none
  lapse_date : Option String := none
deriving DecidableEq

structure PyBankruptcyRecord where
  status : Option String := none
  date : Option String := none
deriving DecidableEq

/-- `FleetScoreData` dataclass. -/
structure FleetScoreData where
  operator_name : String
  operator_age_years : ℝ
  fleet_size : ℤ
  fleet_events : List PyEvent
  ucc_filings : List PyUccFiling
  argus_rating : Option String := none
  wyvern_rating : Option String := none
  bankruptcy_history : Option (List PyBankruptcyRecord) := none

/-- `TailScoreData` dataclass. -/
structure TailScoreData where
  aircraft_age_years : ℝ
  operator_name : String
  registered_owner : String
  tail_events : List PyEvent
  fractional_owner : Bool

/-! ## Severity classifier and certification tables -/

/-- `_get_event_severity`: ordered substring checks on the lowered fields. -/
def getEventSeverity (event : PyEvent) : ℝ :=
  let event_type := pyLower (event.event_type.getD "")
  let injury_level := pyLower (event.injury_level.getD "")
  let sev := pyLower (event.severity.getD "")
  if substrOf "accident" event_type then
    if substrOf "fatal" injury_level then 50 else 25
  else if substrOf "serious" event_type ∨ substrOf "serious" injury_level then 15
  else if substrOf "major" event_type ∨ substrOf "major" sev then 10
  else 5

/-- `ARGUS_POINTS` in insertion order. -/
def argusTable : List (String × ℤ) :=
  [("Platinum Elite", 0), ("Platinum", 2), ("Gold Plus", 4), ("Gold", 6), ("None", 10)]

/-- `WYVERN_POINTS` in insertion order. -/
def wyvernTable : List (String × ℤ) :=
  [("Wingman PRO", 2), ("Wingman", 4), ("Registered Operator", 6), ("None", 10)]

/-- Normalization of `"no"`/`""` ratings to the `"None"` table key. -/
def ratingKey (r : String) : String :=
  if pyLower r = "no" ∨ pyLower r = "" then "None" else r

/-- Python dict key lookup (`rating in POINTS` then `POINTS[rating]`). -/
def tableLookup (k : String) : List (String × ℤ) → Option ℤ
  | [] => none
  | (key, v) :: rest => if key = k then some v else tableLookup k rest

/-- ARGUS half of `_calculate_fleet_certification_score`: default 10, the
falsy rating skipped, `"no"`/`""` normalized to `"None"`, exact dict lookup
first, then a first-match case-insensitive scan. -/
def argusLookup : Option String → ℤ
  | none => 10
  | some r =>
    if r = "" then 10
    else
      match tableLookup (ratingKey r) argusTable with
      | some v => v
      | none =>
        match argusTable.find? (fun kv => pyLower kv.1 = pyLower (ratingKey r)) with
        | some kv => kv.2
        | none => 10

/-- WYVERN half of `_calculate_fleet_certification_score`: like the ARGUS
half, but the fallback scan also accepts a substring match of the lowered
rating inside a lowered key. -/
def wyvernLookup : Option String → ℤ
  | none => 10
  | some r =>
    if r = "" then 10
    else
      match tableLookup (ratingKey r) wyvernTable with
      | some v => v
      | none =>
        match wyvernTable.find? (fun kv =>
            pyLower kv.1 = pyLower (ratingKey r) ∨
            substrOf (pyLower (ratingKey r)) (pyLower kv.1)) with
        | some kv => kv.2
        | none => 10

/-- `_calculate_fleet_certification_score`: minimum penalty of the two. -/
def certificationScore (argus wyvern : Option String) : ℤ :=
  min (argusLookup argus) (wyvernLookup wyvern)

/-! ## Real-valued score components -/

noncomputable section
open Classical

/-- `TIME_DECAY_K = ln 2 / 5`. -/
noncomputable def TIME_DECAY_K : ℝ := Real.log 2 / 5

/-- Volatility factor of `_calculate_fleet_operational_risk`:
`fleet_size * ln(age + 1)`, replaced by `1` when it equals `0`. -/
noncomputable def volatilityFactor (fleet_size : ℤ) (operator_age_years : ℝ) : ℝ :=
  if (fleet_size : ℝ) * Real.log (operator_age_years + 1) = 0 then 1
  else (fleet_size : ℝ) * Real.log (operator_age_years + 1)

/-- `_calculate_fleet_operational_risk`: time-decayed severity sum, each
severity divided by the volatility factor; events whose date does not parse
contribute nothing, and an empty event list short-circuits to `0`. -/
noncomputable def fleetOperationalRisk (now : ℤ) (fleet_events : List PyEvent)
    (fleet_size : ℤ) (operator_age_years : ℝ) : ℝ :=
  if fleet_events = [] then 0
  else
    let vf := volatilityFactor fleet_size operator_age_years
    fleet_events.foldl (fun acc event =>
      match parseDate event.event_date with
      | some d =>
        acc + getEventSeverity event / vf * Real.exp (-TIME_DECAY_K * deltaYears now d)
      | none => acc) 0

/-- `_calculate_fleet_financial_score`: bankruptcy floor, neutral default 5
for no filings, otherwise decayed reward/penalty over 5-year-recent filings. -/
noncomputable def fleetFinancialScore (now : ℤ) (ucc_filings : List PyUccFiling)
    (bankruptcy_history : Option (List PyBankruptcyRecord)) : ℝ :=
  let fiveYearsAgo : ℤ := now - 5 * 365 * 86400
  let recentBankruptcy :=
    match bankruptcy_history with
    | none => false
    | some records =>
      records.any fun record =>
        pyLower (record.status.getD "") = "active" ∨
        (match parseDate record.date with
         | some d => fiveYearsAgo < toEpochSeconds d
         | none => false)
  if recentBankruptcy then 0
  else if ucc_filings = [] then 5
  else
    ucc_filings.foldl (fun acc filing =>
      match parseDate filing.filing_date with
      | none => acc
      | some fd =>
        if toEpochSeconds fd < fiveYearsAgo then acc
        else
          let status := pyLower (filing.status.getD "")
          if ["satisfied", "released", "terminated", "lapsed"].any
              (fun keyword => substrOf keyword status) then
            let resolution := (parseDate filing.lapse_date).getD fd
            acc + Real.exp (-(0.15) * deltaYears now resolution)
          else acc - 5 * Real.exp (-(0.15) * deltaYears now fd)) 0

/-- `_calculate_tail_maintenance_risk`: U-shaped age penalty. -/
noncomputable def tailMaintenanceRisk (aircraft_age_years : ℝ) : ℝ :=
  let x := aircraft_age_years
  2 * (4.15 * Real.exp (-2 * x) + 100 * (max 0 (x - 5) / 25) ^ (1.5 : ℝ))

/-- `_calculate_tail_ownership_status`: case-insensitive substring ownership
test, defensive on empty names. -/
def tailOwnershipStatus (operator_name registered_owner : String)
    (fractional_owner : Bool) : ℝ :=
  if operator_name = "" ∨ registered_owner = "" then 0
  else if substrOf (pyLower operator_name) (pyLower registered_owner) then
    if fractional_owner then 5 else 10
  else 0

/-- `_calculate_tail_incident_history`: flat time-decayed severity sum. -/
noncomputable def tailIncidentHistory (now : ℤ) (tail_events : List PyEvent) : ℝ :=
  if tail_events = [] then 0
  else
    tail_events.foldl (fun acc event =>
      match parseDate event.event_date with
      | some d =>
        acc + getEventSeverity event * Real.exp (-TIME_DECAY_K * deltaYears now d)
      | none => acc) 0

/-- Clamp to `[0, 100]`, `max(0.0, min(100.0, score))`. -/
noncomputable def clamp100 (x : ℝ) : ℝ := max 0 (min 100 x)

/-- `calculate_fleet_score` (numeric result): `OS = 100 - ORF + FSF - CSF`
clamped to `[0, 100]`. -/
noncomputable def calculateFleetScore (now : ℤ) (data : FleetScoreData) : ℝ :=
  let orf := fleetOperationalRisk now data.fleet_events data.fleet_size
    data.operator_age_years
  let fsf := fleetFinancialScore now data.ucc_filings data.bankruptcy_history
  let csf := certificationScore data.argus_rating data.wyvern_rating
  clamp100 (100 - orf + fsf - (csf : ℝ))

/-- `calculate_tail_score` (numeric result): `TS = 100 - MRT + OST - 5*IHT`
clamped to `[0, 100]`. -/
noncomputable def calculateTailScore (now : ℤ) (data : TailScoreData) : ℝ :=
  let mrt := tailMaintenanceRisk data.aircraft_age_years
  let ost := tailOwnershipStatus data.operator_name data.registered_owner
    data.fractional_owner
  let iht := tailIncidentHistory now data.tail_events
  clamp100 (100 - mrt + ost - 5 * iht)

/-- `calculate_confidence_score`: `CS = 1 - e^(-0.384 * age)`. -/
noncomputable def confidenceScore (operator_age_years : ℝ) : ℝ :=
  1 - Real.exp (-0.384 * operator_age_years)

/-- `get_score_tier`: descending threshold match. -/
noncomputable def getScoreTier (score : ℝ) : String :=
  if 90 ≤ score then "Pinnacle"
  else if 80 ≤ score then "Premier"
  else if 70 ≤ score then "Benchmark"
  else "Standard"

/-- Python 3 `round` to an integer: round-half-to-even. -/
noncomputable def roundHalfEven (y : ℝ) : ℤ :=
  if Int.fract y < 1 / 2 then ⌊y⌋
  else if 1 / 2 < Int.fract y then ⌈y⌉
  else if Even ⌊y⌋ then ⌊y⌋ else ⌊y⌋ + 1

/-- Python `round(x, n)` on the real model. -/
noncomputable def roundTo (n : ℕ) (x : ℝ) : ℝ :=
  (roundHalfEven (x * 10 ^ n) : ℝ) / 10 ^ n

/-- Trust-score composition of `calculate_trust_score`:
`50 + (0.5 * (0.6*OS + 0.4*TS)) * CS(age)`. -/
noncomputable def trustScoreValue (operator_score tail_score age : ℝ) : ℝ :=
  50 + (0.5 * (0.6 * operator_score + 0.4 * tail_score)) * confidenceScore age

/-- Numeric fields of the dict returned by `calculate_trust_score` (the
breakdown prose, timestamp and optional LLM insights are not modelled). -/
structure TrustScoreResult where
  trust_score : ℝ
  score_tier : String
  fleet_score : ℝ
  operator_score : ℝ
  tail_score : ℝ
  confidence_score : ℝ
  raw_combined_score : ℝ

/-- `calculate_trust_score`. -/
noncomputable def calculateTrustScore (now : ℤ) (fleet_data : FleetScoreData)
    (tail_data : TailScoreData) : TrustScoreResult :=
  let operator_score := calculateFleetScore now fleet_data
  let tail_score := calculateTailScore now tail_data
  let cs := confidenceScore fleet_data.operator_age_years
  let raw_combined := 0.6 * operator_score + 0.4 * tail_score
  let trust_score := trustScoreValue operator_score tail_score fleet_data.operator_age_years
  let fleet_score := 50 + 0.5 * operator_score * cs
  { trust_score := roundTo 2 trust_score
    score_tier := getScoreTier trust_score
    fleet_score := roundTo 2 fleet_score
    operator_score := roundTo 2 operator_score
    tail_score := roundTo 2 tail_score
    confidence_score := roundTo 4 cs
    raw_combined_score := roundTo 2 raw_combined }

end

/-! ## Helper lemmas: digit strings and ISO shapes -/

theorem digitsToNat_aux_lt (l : List Char) (acc : ℕ) (h : ∀ c ∈ l, isDig c) :
    l.foldl (fun a c => a * 10 + (c.toNat - 48)) acc < (acc + 1) * 10 ^ l.length := by
  induction l generalizing acc with
  | nil => simpa using Nat.lt_succ_self acc
  | cons c l ih =>
    have hc : c.toNat - 48 ≤ 9 := by
      have := h c (List.mem_cons_self c l)
      simp only [isDig, decide_eq_true_eq] at this
      omega
    have hrec := ih (acc * 10 + (c.toNat - 48)) (fun x hx => h x (List.mem_cons_of_mem c hx))
    calc List.foldl (fun a c => a * 10 + (c.toNat - 48)) (acc * 10 + (c.toNat - 48)) l
        < (acc * 10 + (c.toNat - 48) + 1) * 10 ^ l.length := hrec
      _ ≤ ((acc + 1) * 10) * 10 ^ l.length := by
          exact Nat.mul_le_mul_right _ (by omega)
      _ = (acc + 1) * 10 ^ (l.length + 1) := by ring

theorem digitsToNat_lt (l : List Char) (h : l.all isDig) :
    digitsToNat l < 10 ^ l.length := by
  have := digitsToNat_aux_lt l 0 (by simpa [List.all_eq_true] using h)
  simpa [digitsToNat] using this

theorem digitsVal_lt {l : List Char} {v : ℕ} (h : digitsVal l = some v) :
    v < 10 ^ l.length := by
  unfold digitsVal at h
  split at h
  case isTrue hc =>
    obtain rfl : digitsToNat l = v := by simpa using h
    exact digitsToNat_lt l hc.2
  case isFalse => exact absurd h (by simp)

theorem pyIntOfChars_bounds (l : List Char) (n : ℤ) (h : pyIntOfChars l = some n) :
    -(10 ^ l.length : ℤ) < n ∧ n < 10 ^ l.length := by
  unfold pyIntOfChars at h
  split at h
  case _ rest =>
    cases hv : digitsVal rest with
    | none => rw [hv] at h; exact absurd h (by simp)
    | some v =>
      rw [hv] at h
      simp only [Option.pure_def, Option.bind_eq_bind, Option.some_bind,
        Option.map_some', Option.some.injEq] at h
      subst h
      have hd : (v : ℤ) < 10 ^ rest.length := by exact_mod_cast digitsVal_lt hv
      have hpow : (10 ^ rest.length : ℤ) ≤ 10 ^ (rest.length + 1) := by
        exact pow_le_pow_right₀ (by norm_num) (by omega)
      have h0 : (0 : ℤ) ≤ (v : ℤ) := by positivity
      have hp : (0 : ℤ) < 10 ^ (rest.length + 1) := by positivity
      simp only [List.length_cons]
      omega
  case _ rest =>
    cases hv : digitsVal rest with
    | none => rw [hv] at h; exact absurd h (by simp)
    | some v =>
      rw [hv] at h
      simp only [Option.pure_def, Option.bind_eq_bind, Option.some_bind,
        Option.map_some', Option.some.injEq] at h
      subst h
      have hd : (v : ℤ) < 10 ^ rest.length := by exact_mod_cast digitsVal_lt hv
      have hpow : (10 ^ rest.length : ℤ) ≤ 10 ^ (rest.length + 1) := by
        exact pow_le_pow_right₀ (by norm_num) (by omega)
      have h0 : (0 : ℤ) ≤ (v : ℤ) := by positivity
      have hp : (0 : ℤ) < 10 ^ (rest.length + 1) := by positivity
      simp only [List.length_cons]
      omega
  case _ =>
    cases hv : digitsVal l with
    | none => rw [hv] at h; exact absurd h (by simp)
    | some v =>
      rw [hv] at h
      simp only [Option.pure_def, Option.bind_eq_bind, Option.some_bind,
        Option.map_some', Option.some.injEq] at h
      subst h
      have hd : (v : ℤ) < 10 ^ l.length := by exact_mod_cast digitsVal_lt hv
      have h0 : (0 : ℤ) ≤ (v : ℤ) := by positivity
      have hp : (0 : ℤ) < (10 : ℤ) ^ l.length := by positivity
      omega

theorem ISOShaped_formatISO {y m d : ℕ} (hy : y ≤ 9999) (hm1 : 1 ≤ m) (hm2 : m ≤ 12)
    (hd1 : 1 ≤ d) (hd2 : d ≤ 31) : ISOShaped (formatISO y m d) :=
  ⟨y, m, d, hy, hm1, hm2, hd1, hd2, rfl⟩

theorem daysInMonth_le (y m : ℕ) : daysInMonth y m ≤ 31 := by
  unfold daysInMonth
  split_ifs <;> norm_num

theorem take_two_pow_le (cs : List Char) : (10 : ℤ) ^ (cs.take 2).length ≤ 100 := by
  have : (cs.take 2).length ≤ 2 := by
    simpa using List.length_take_le 2 cs
  calc (10 : ℤ) ^ (cs.take 2).length ≤ 10 ^ 2 := by
        exact pow_le_pow_right (by norm_num) this
    _ = 100 := by norm_num

theorem twoDigitFullYear_bounds {y2 : ℤ} (h1 : -100 < y2) (h2 : y2 < 100) :
    1 ≤ (twoDigitFullYear y2).toNat ∧ (twoDigitFullYear y2).toNat ≤ 9999 := by
  unfold twoDigitFullYear
  split <;> omega

theorem uccMonthOr1_iso {year : ℤ} (h1 : 1 ≤ year.toNat) (h2 : year.toNat ≤ 9999)
    (mopt : Option ℤ) : ISOShaped (uccMonthOr1 year mopt) := by
  cases mopt with
  | none =>
    show ISOShaped (formatISO year.toNat 1 1)
    apply ISOShaped_formatISO <;> omega
  | some mo =>
    show ISOShaped (if 1 ≤ mo ∧ mo ≤ 12 then formatISO year.toNat mo.toNat 1
      else formatISO year.toNat 1 1)
    split
    next hmo => apply ISOShaped_formatISO <;> omega
    next => apply ISOShaped_formatISO <;> omega

theorem uccFourDigitMonth_iso_or_unknown {year : ℤ} (h1 : 1 ≤ year.toNat)
    (h2 : year.toNat ≤ 9999) (mopt : Option ℤ) :
    ISOShaped (uccFourDigitMonth year mopt) ∨ uccFourDigitMonth year mopt = "Unknown" := by
  cases mopt with
  | none => exact Or.inr rfl
  | some mo =>
    left
    show ISOShaped (if 1 ≤ mo ∧ mo ≤ 12 then formatISO year.toNat mo.toNat 1
      else formatISO year.toNat 1 1)
    split
    next hmo => apply ISOShaped_formatISO <;> omega
    next => apply ISOShaped_formatISO <;> omega

theorem uccTwoDigit_iso_or_unknown (cs : List Char) :
    ISOShaped (uccTwoDigit cs) ∨ uccTwoDigit cs = "Unknown" := by
  unfold uccTwoDigit
  split
  case _ => exact Or.inr rfl
  case _ y2 hy =>
    have hb := pyIntOfChars_bounds _ _ hy
    have hle := take_two_pow_le cs
    obtain ⟨hf1, hf2⟩ := @twoDigitFullYear_bounds y2 (by omega) (by omega)
    left
    split
    · exact uccMonthOr1_iso hf1 hf2 _
    · apply ISOShaped_formatISO <;> omega

theorem uccDateOfChars_iso_or_unknown (cs : List Char) :
    ISOShaped (uccDateOfChars cs) ∨ uccDateOfChars cs = "Unknown" := by
  unfold uccDateOfChars
  split
  · exact Or.inr rfl
  split
  · split
    case _ => exact Or.inr rfl
    case _ year hy =>
      split
      case isTrue hyr =>
        have hy1 : 1 ≤ year.toNat := by omega
        have hy2 : year.toNat ≤ 9999 := by omega
        split
        · exact uccFourDigitMonth_iso_or_unknown hy1 hy2 _
        · exact Or.inl (by apply ISOShaped_formatISO <;> omega)
      case isFalse => exact uccTwoDigit_iso_or_unknown cs
  · exact uccTwoDigit_iso_or_unknown cs

theorem extractDate_iso_or_unknown (s : String) :
    ISOShaped (extractDateFromUccNumber s) ∨ extractDateFromUccNumber s = "Unknown" :=
  uccDateOfChars_iso_or_unknown s.data

theorem validDate_eq {y m d y' m' d' : ℕ} (h : validDate y m d = some (y', m', d')) :
    y' = y ∧ m' = m ∧ d' = d ∧ 1 ≤ y ∧ 1 ≤ m ∧ m ≤ 12 ∧ 1 ≤ d ∧ d ≤ daysInMonth y m := by
  unfold validDate at h
  split at h
  next hc =>
    have h' : y = y' ∧ m = m' ∧ d = d' := by simpa using h
    obtain ⟨rfl, rfl, rfl⟩ := h'
    exact ⟨rfl, rfl, rfl, hc.1, hc.2.1, hc.2.2.1, hc.2.2.2.1, hc.2.2.2.2⟩
  next => exact absurd h (by simp)

theorem parseISODatePart_bounds {l : List Char} {y m d : ℕ}
    (h : parseISODatePart l = some (y, m, d)) :
    1 ≤ y ∧ y ≤ 9999 ∧ 1 ≤ m ∧ m ≤ 12 ∧ 1 ≤ d ∧ d ≤ 31 := by
  unfold parseISODatePart at h
  split at h
  case _ x y1 y2 y3 y4 m1 m2 d1 d2 =>
    split at h
    next hdig =>
      obtain ⟨hy', hm', hd', h1, h3, h4, h5, h6⟩ := validDate_eq h
      subst hy'
      subst hm'
      subst hd'
      have hdig4 : ([y1, y2, y3, y4] : List Char).all isDig := by
        simp only [List.all_cons, List.all_nil, Bool.and_eq_true] at hdig ⊢
        tauto
      have hylt := digitsToNat_lt [y1, y2, y3, y4] hdig4
      have hp : (10 : ℕ) ^ ([y1, y2, y3, y4] : List Char).length = 10000 := by norm_num
      rw [hp] at hylt
      have hdm := daysInMonth_le (digitsToNat [y1, y2, y3, y4]) (digitsToNat [m1, m2])
      exact ⟨h1, by omega, h3, h4, h5, by omega⟩
    next => exact absurd h (by simp)
  case _ => exact absurd h (by simp)

theorem fromisoformat_bounds {s : String} {dt : PyDateTime} (h : fromisoformat s = some dt) :
    1 ≤ dt.year ∧ dt.year ≤ 9999 ∧ 1 ≤ dt.month ∧ dt.month ≤ 12 ∧ 1 ≤ dt.day ∧ dt.day ≤ 31 := by
  unfold fromisoformat at h
  split at h
  case _ heq => exact absurd h (by simp)
  case _ y m d heq =>
    have hb := parseISODatePart_bounds heq
    split at h
    case _ heq2 =>
      obtain rfl := Option.some.inj h
      simpa using hb
    case _ sep rest heq2 =>
      split at h
      case _ h5 mi sec tz heq3 =>
        obtain rfl := Option.some.inj h
        simpa using hb
      case _ heq3 => exact absurd h (by simp)

theorem strptimeYMD_bounds {s : String} {y m d : ℕ} (h : strptimeYMD s = some (y, m, d)) :
    1 ≤ y ∧ y ≤ 9999 ∧ 1 ≤ m ∧ m ≤ 12 ∧ 1 ≤ d ∧ d ≤ 31 := by
  unfold strptimeYMD at h
  split at h
  case _ ys ms ds heq =>
    split at h
    next hc =>
      obtain ⟨hy', hm', hd', h1, h3, h4, h5, h6⟩ := validDate_eq h
      subst hy'
      subst hm'
      subst hd'
      have hlen : ys.data.length = 4 := hc.1
      have hylt := digitsToNat_lt ys.data hc.2.1
      rw [hlen] at hylt
      have hp : (10 : ℕ) ^ (4 : ℕ) = 10000 := by norm_num
      rw [hp] at hylt
      have hdm := daysInMonth_le (digitsToNat ys.data) (digitsToNat ms.data)
      exact ⟨h1, by omega, h3, h4, h5, by omega⟩
    next => exact absurd h (by simp)
  case _ => exact absurd h (by simp)

theorem strptimeMDY_bounds {s : String} {y m d : ℕ} (h : strptimeMDY s = some (y, m, d)) :
    1 ≤ y ∧ y ≤ 9999 ∧ 1 ≤ m ∧ m ≤ 12 ∧ 1 ≤ d ∧ d ≤ 31 := by
  unfold strptimeMDY at h
  split at h
  case _ ms ds ys heq =>
    split at h
    next hc =>
      obtain ⟨hy', hm', hd', h1, h3, h4, h5, h6⟩ := validDate_eq h
      subst hy'
      subst hm'
      subst hd'
      have hlen : ys.data.length = 4 := hc.1
      have hylt := digitsToNat_lt ys.data hc.2.1
      rw [hlen] at hylt
      have hp : (10 : ℕ) ^ (4 : ℕ) = 10000 := by norm_num
      rw [hp] at hylt
      have hdm := daysInMonth_le (digitsToNat ys.data) (digitsToNat ms.data)
      exact ⟨h1, by omega, h3, h4, h5, by omega⟩
    next => exact absurd h (by simp)
  case _ => exact absurd h (by simp)

theorem normalizeDate_cases (s : String) :
    ISOShaped (normalizeDate s) ∨ normalizeDate s = "Unknown" ∨ normalizeDate s = s := by
  unfold normalizeDate
  split
  · exact Or.inr (Or.inl rfl)
  · split
    case _ dt heq =>
      obtain ⟨h1, h2, h3, h4, h5, h6⟩ := fromisoformat_bounds heq
      exact Or.inl (ISOShaped_formatISO h2 h3 h4 h5 h6)
    case _ =>
      split
      case _ t heq =>
        obtain ⟨h1, h2, h3, h4, h5, h6⟩ := strptimeMDY_bounds heq
        exact Or.inl (ISOShaped_formatISO h2 h3 h4 h5 h6)
      case _ =>
        split
        case _ t heq =>
          obtain ⟨h1, h2, h3, h4, h5, h6⟩ := strptimeYMD_bounds heq
          exact Or.inl (ISOShaped_formatISO h2 h3 h4 h5 h6)
        case _ => exact Or.inr (Or.inr rfl)

theorem normalizeStatus_cases (s : String) :
    normalizeStatus s ∈ ["Active", "Lapsed", "Terminated", "Unknown"] ∨
    normalizeStatus s = pyCapitalize s := by
  simp only [normalizeStatus]
  split
  · simp
  · split
    · simp
    · split
      · simp
      · split
        · simp
        · exact Or.inr rfl

theorem pad2_length {n : ℕ} (h : n < 100) : (pad2 n).length = 2 := by
  unfold pad2
  rw [if_pos h]
  rfl

theorem pad4_length {n : ℕ} (h : n < 10000) : (pad4 n).length = 4 := by
  unfold pad4
  rw [if_pos h]
  rfl

theorem formatISO_length {y m d : ℕ} (hy : y ≤ 9999) (hm : m < 100) (hd : d < 100) :
    (formatISO y m d).length = 10 := by
  unfold formatISO
  rw [String.length_append, String.length_append, String.length_append,
    String.length_append, pad4_length (by omega), pad2_length hm, pad2_length hd]
  rfl

theorem not_ISOShaped_empty : ¬ ISOShaped "" := by
  rintro ⟨y, m, d, hy, hm1, hm2, hd1, hd2, heq⟩
  have hlen := @formatISO_length y m d hy (by omega) (by omega)
  rw [← heq] at hlen
  exact absurd hlen (by decide)

theorem genericRecord_date (filing : RawFiling) :
    ISOShaped (genericRecord filing).filing_date ∨
    (genericRecord filing).filing_date = "Unknown" ∨
    (genericRecord filing).filing_date = filing.filing_date.getD "Unknown" := by
  by_cases hcond : filing.filing_date.getD "Unknown" ≠ "" ∧
      filing.filing_date.getD "Unknown" ≠ "Unknown"
  · have hval : (genericRecord filing).filing_date =
        normalizeDate (filing.filing_date.getD "Unknown") := by
      show (if filing.filing_date.getD "Unknown" ≠ "" ∧
          filing.filing_date.getD "Unknown" ≠ "Unknown" then
          normalizeDate (filing.filing_date.getD "Unknown")
        else filing.filing_date.getD "Unknown") = _
      rw [if_pos hcond]
    rw [hval]
    rcases normalizeDate_cases (filing.filing_date.getD "Unknown") with h | h | h
    · exact Or.inl h
    · exact Or.inr (Or.inl h)
    · exact Or.inr (Or.inr h)
  · have hval : (genericRecord filing).filing_date = filing.filing_date.getD "Unknown" := by
      show (if filing.filing_date.getD "Unknown" ≠ "" ∧
          filing.filing_date.getD "Unknown" ≠ "Unknown" then
          normalizeDate (filing.filing_date.getD "Unknown")
        else filing.filing_date.getD "Unknown") = _
      rw [if_neg hcond]
    exact Or.inr (Or.inr hval)

/-! ## Claim C2: canonical status invariant -/

/-- C2 counterexample: the generic normalizer applied to a filing whose raw
status is `"pending"` produces the status `"Pending"`, which is none of the
four canonical values — refuting the claim that every produced status is
`Active`, `Lapsed`, `Terminated` or `Unknown`. -/
theorem claim_C2_counterexample :
    (normalizeUccFilings { filings := [{ status := some "pending" }] } "Texas").map
      (fun f => f.status) = ["Pending"] ∧
    "Pending" ∉ (["Active", "Lapsed", "Terminated", "Unknown"] : List String) := by
  constructor
  · rfl
  · decide

/-- C2 (amended): every status produced by the UCC normalizer is one of the
four canonical values, or else it is the Python `capitalize` of some raw
source status (the fallback branch of `_normalize_status`). -/
theorem claim_C2_status_amended (flow : FlowResult) (state : String)
    (f : NormalizedFiling) (hf : f ∈ normalizeUccFilings flow state) :
    f.status ∈ ["Active", "Lapsed", "Terminated", "Unknown"] ∨
    ∃ raw, f.status = pyCapitalize raw := by
  unfold normalizeUccFilings at hf
  split at hf
  · unfold normalizeFlorida at hf
    obtain ⟨debtor, hd, rfl⟩ := List.mem_map.mp hf
    rcases normalizeStatus_cases (debtor.status.getD "Unknown") with h | h
    · exact Or.inl h
    · exact Or.inr ⟨_, h⟩
  · unfold normalizeGeneric at hf
    obtain ⟨filing, hd, rfl⟩ := List.mem_map.mp hf
    rcases normalizeStatus_cases (filing.status.getD "Unknown") with h | h
    · exact Or.inl h
    · exact Or.inr ⟨_, h⟩

/-- Concrete generic flow used by the C2 witness. -/
def c2Flow : FlowResult := { filings := [{ status := some "current" }] }

/-- Normalized record produced from `c2Flow`. -/
def c2Out : NormalizedFiling :=
  { filing_date := "Unknown", status := "Active", debtor_name := "Unknown",
    file_number := none, secured_party := none, collateral := none }

/-- C2 witness: the amended claim applied to a concrete normalized filing. -/
theorem claim_C2_witness :
    c2Out ∈ normalizeUccFilings c2Flow "Texas" ∧
    (c2Out.status ∈ ["Active", "Lapsed", "Terminated", "Unknown"] ∨
     ∃ raw, c2Out.status = pyCapitalize raw) :=
  ⟨by decide, claim_C2_status_amended c2Flow "Texas" c2Out (by decide)⟩

/-! ## Claim C3: filing date invariant -/

/-- C3 counterexample: a generic filing whose raw `filing_date` is the empty
string passes through unchanged (the truthiness guard skips normalization),
so the produced `filing_date` is the raw source string — neither an
ISO-formatted date nor the literal `"Unknown"`. -/
theorem claim_C3_counterexample :
    (normalizeUccFilings { filings := [{ filing_date := some "" }] } "Georgia").map
      (fun f => f.filing_date) = [""] ∧
    ¬ ISOShaped "" ∧ ("" : String) ≠ "Unknown" :=
  ⟨by rfl, not_ISOShaped_empty, by decide⟩

/-- C3 (amended): every `filing_date` produced by the UCC normalizer is an
ISO-formatted `YYYY-MM-DD` string, or the literal `"Unknown"`, or — when the
raw date fails every supported parse (or is falsy) — the raw source string
unchanged. -/
theorem claim_C3_date_amended (flow : FlowResult) (state : String)
    (f : NormalizedFiling) (hf : f ∈ normalizeUccFilings flow state) :
    ISOShaped f.filing_date ∨ f.filing_date = "Unknown" ∨
    ∃ r ∈ flow.filings, f.filing_date = r.filing_date.getD "Unknown" := by
  unfold normalizeUccFilings at hf
  split at hf
  · unfold normalizeFlorida at hf
    obtain ⟨debtor, hd, rfl⟩ := List.mem_map.mp hf
    rcases extractDate_iso_or_unknown ((floridaRecord debtor).file_number.getD "") with h | h
    · exact Or.inl h
    · exact Or.inr (Or.inl h)
  · unfold normalizeGeneric at hf
    obtain ⟨filing, hd, rfl⟩ := List.mem_map.mp hf
    rcases genericRecord_date filing with h | h | h
    · exact Or.inl h
    · exact Or.inr (Or.inl h)
    · exact Or.inr (Or.inr ⟨filing, hd, h⟩)

/-- Concrete generic flow used by the C3 witness. -/
def c3Flow : FlowResult := { filings := [{ filing_date := some "2024-03-05" }] }

/-- Normalized record produced from `c3Flow`. -/
def c3Out : NormalizedFiling :=
  { filing_date := "2024-03-05", status := "Unknown", debtor_name := "Unknown",
    file_number := none, secured_party := none, collateral := none }

/-- C3 witness: the amended claim applied to a concrete generic filing whose
raw date parses. -/
theorem claim_C3_witness :
    c3Out ∈ normalizeUccFilings c3Flow "Georgia" ∧
    (ISOShaped c3Out.filing_date ∨ c3Out.filing_date = "Unknown" ∨
     ∃ r ∈ c3Flow.filings, c3Out.filing_date = r.filing_date.getD "Unknown") :=
  ⟨by decide, claim_C3_date_amended c3Flow "Georgia" c3Out (by decide)⟩

/-! ## Claim C7: identifier date extraction -/

/-- C7: `extract_date_from_identifier("980000085041")` takes the
2-digit-year branch and yields `"1998-01-01"`, while
`extract_date_from_identifier("201806358547")` takes the
4-digit-year-with-month branch and yields `"2018-06-01"`. -/
theorem claim_C7_identifier_dates :
    extractDateFromUccNumber "980000085041" = "1998-01-01" ∧
    extractDateFromUccNumber "201806358547" = "2018-06-01" := by
  constructor <;> rfl

/-! ## Claim C4: `_parse_date` formats -/

/-- C4 counterexample: `_parse_date` does not accept `MM/DD/YYYY` — it
returns `None` on `"04/04/2025"`, refuting the claim that it returns a
timezone-aware date value for that format. -/
theorem claim_C4_counterexample : parseDate (some "04/04/2025") = none := by rfl

/-- C4 (amended): `_parse_date` accepts ISO-8601 strings (timezone-aware when
a `Z` or numeric offset is present, naive when a time is given without an
offset) and `YYYY-MM-DD` strings (made UTC-aware); it returns `None` for
`MM/DD/YYYY`, for the empty string and for missing input, and is total (the
Python exception handlers convert every parse failure into `None`).
`MM/DD/YYYY` is handled only by the normalizer-side `_normalize_date`, which
re-renders it as an ISO date string. -/
theorem claim_C4_parse_date_amended :
    parseDate (some "2024-03-05T10:00:00Z") =
      some { year := 2024, month := 3, day := 5, hour := 10, minute := 0,
             second := 0, tzOffsetMinutes := some 0 } ∧
    parseDate (some "2024-03-05T10:00:00+02:00") =
      some { year := 2024, month := 3, day := 5, hour := 10, minute := 0,
             second := 0, tzOffsetMinutes := some 120 } ∧
    parseDate (some "2024-03-05") =
      some { year := 2024, month := 3, day := 5, hour := 0, minute := 0,
             second := 0, tzOffsetMinutes := some 0 } ∧
    parseDate (some "2024-03-05T10:00:00") =
      some { year := 2024, month := 3, day := 5, hour := 10, minute := 0,
             second := 0, tzOffsetMinutes := none } ∧
    parseDate (some "04/04/2025") = none ∧
    parseDate (some "") = none ∧
    parseDate none = none ∧
    normalizeDate "04/04/2025" = "2025-04-04" := by
  refine ⟨?_, ?_, ?_, ?_, ?_, ?_, ?_, ?_⟩ <;> rfl

/-! ## Rounding and clamping helper lemmas -/

theorem roundHalfEven_intCast (n : ℤ) : roundHalfEven (n : ℝ) = n := by
  unfold roundHalfEven
  rw [Int.fract_intCast]
  rw [if_pos (by norm_num : (0 : ℝ) < 1 / 2)]
  exact Int.floor_intCast n

theorem roundTo_intCast (k : ℕ) (n : ℤ) : roundTo k ((n : ℤ) : ℝ) = n := by
  unfold roundTo
  rw [show ((n : ℤ) : ℝ) * 10 ^ k = (((n * 10 ^ k : ℤ)) : ℝ) by push_cast; ring]
  rw [roundHalfEven_intCast]
  push_cast
  rw [mul_div_assoc, div_self (by positivity), mul_one]

theorem clamp100_nonneg (x : ℝ) : 0 ≤ clamp100 x := le_max_left 0 _

theorem clamp100_le (x : ℝ) : clamp100 x ≤ 100 :=
  max_le (by norm_num) (min_le_left _ _)

theorem clamp100_of_mem {x : ℝ} (h1 : 0 ≤ x) (h2 : x ≤ 100) : clamp100 x = x := by
  unfold clamp100
  rw [min_eq_right h2, max_eq_right h1]

theorem confidenceScore_zero : confidenceScore 0 = 0 := by
  unfold confidenceScore
  simp

/-! ## Zero-evidence fleet input -/

/-- `FleetScoreData` with empty events and filings, no ratings, no
bankruptcy history and `operator_age_years = 0` (fleet size left free). -/
def zeroEvidenceFleet (name : String) (fs : ℤ) : FleetScoreData :=
  { operator_name := name, operator_age_years := 0, fleet_size := fs,
    fleet_events := [], ucc_filings := [] }

theorem calculateFleetScore_zeroEvidence (now : ℤ) (name : String) (fs : ℤ) :
    calculateFleetScore now (zeroEvidenceFleet name fs) = 95 := by
  have hbody : calculateFleetScore now (zeroEvidenceFleet name fs) =
      clamp100 (100 - 0 + 5 - ((10 : ℤ) : ℝ)) := rfl
  rw [hbody, show (100 : ℝ) - 0 + 5 - ((10 : ℤ) : ℝ) = 95 by push_cast; ring]
  exact clamp100_of_mem (by norm_num) (by norm_num)

/-! ## Claim C1: zero-evidence defaults -/

/-- C1: on a zero-evidence `FleetScoreData` (empty `fleet_events`, empty
`ucc_filings`, no ARGUS/WYVERN rating, no bankruptcy history, age 0) the
operator score is exactly `95 = 100 - 0 + 5 - 10`, the confidence score is
exactly `0`, and the `fleet_score` reported by `calculate_trust_score` is
exactly `50`, for every clock value, operator name, fleet size and tail
input. -/
theorem claim_C1_zero_evidence (now : ℤ) (name : String) (fs : ℤ)
    (tail : TailScoreData) :
    (calculateTrustScore now (zeroEvidenceFleet name fs) tail).operator_score = 95 ∧
    (calculateTrustScore now (zeroEvidenceFleet name fs) tail).confidence_score = 0 ∧
    (calculateTrustScore now (zeroEvidenceFleet name fs) tail).fleet_score = 50 := by
  have hOS := calculateFleetScore_zeroEvidence now name fs
  have hCS : confidenceScore (zeroEvidenceFleet name fs).operator_age_years = 0 :=
    confidenceScore_zero
  refine ⟨?_, ?_, ?_⟩
  · show roundTo 2 (calculateFleetScore now (zeroEvidenceFleet name fs)) = 95
    rw [hOS, show (95 : ℝ) = ((95 : ℤ) : ℝ) by norm_num, roundTo_intCast]
  · show roundTo 4 (confidenceScore (zeroEvidenceFleet name fs).operator_age_years) = 0
    rw [hCS, show (0 : ℝ) = ((0 : ℤ) : ℝ) by norm_num, roundTo_intCast]
  · show roundTo 2 (50 + 0.5 * calculateFleetScore now (zeroEvidenceFleet name fs) *
        confidenceScore (zeroEvidenceFleet name fs).operator_age_years) = 50
    rw [hOS, hCS, show (50 : ℝ) + 0.5 * 95 * 0 = ((50 : ℤ) : ℝ) by norm_num,
      roundTo_intCast]
    norm_num

/-! ## Claim C5: volatility factor guard -/

/-- C5 counterexample: at `fleet_size = 1`, `operator_age_years = 1` the
computed volatility factor is `ln 2 ≈ 0.69 < 1` and nonzero, so the `vf == 0`
guard does not fire and the divisor actually applied is less than `1` —
refuting the claim that the divisor is never less than `1`. -/
theorem claim_C5_counterexample : volatilityFactor 1 1 < 1 := by
  unfold volatilityFactor
  have heq : (((1 : ℤ) : ℝ)) * Real.log ((1 : ℝ) + 1) = Real.log 2 := by
    push_cast
    rw [one_mul]
    norm_num
  have hpos : (0 : ℝ) < (((1 : ℤ) : ℝ)) * Real.log ((1 : ℝ) + 1) := by
    rw [heq]
    exact Real.log_pos (by norm_num)
  rw [if_neg (ne_of_gt hpos), heq]
  calc Real.log 2 < 0.6931471808 := Real.log_two_lt_d9
    _ < 1 := by norm_num

/-- C5 (amended): the volatility-factor guard only replaces an exactly-zero
`VF` by `1`; the effective divisor is therefore never `0` (no division by
zero), but values strictly between `0` and `1` are used unchanged. -/
theorem claim_C5_divisor_nonzero (fleet_size : ℤ) (operator_age_years : ℝ) :
    volatilityFactor fleet_size operator_age_years ≠ 0 := by
  unfold volatilityFactor
  split
  · norm_num
  next h => exact h

/-! ## Claim C6: no validation of negative fleet_size -/

/-- Zero-evidence input with an impossible negative fleet size. -/
def negFleet : FleetScoreData :=
  { operator_name := "Op", operator_age_years := 0, fleet_size := -1,
    fleet_events := [], ucc_filings := [] }

/-- C6 counterexample: `calculate_fleet_score` performs no input validation —
called with `fleet_size = -1` it silently computes the score `95` instead of
raising or returning a validation error (the embedding is a total function
into `ℝ` precisely because the source has no raise/error path). -/
theorem claim_C6_counterexample : calculateFleetScore 0 negFleet = 95 :=
  calculateFleetScore_zeroEvidence 0 "Op" (-1)

/-- C6 (amended): none of the public scoring functions validates
`fleet_size`; for every fleet size — negative ones included — the
zero-evidence input yields the silently computed score `95`. -/
theorem claim_C6_no_validation (now : ℤ) (name : String) (fs : ℤ) :
    calculateFleetScore now (zeroEvidenceFleet name fs) = 95 :=
  calculateFleetScore_zeroEvidence now name fs

/-! ## Claim C9: certification matching and case variants -/

theorem pyLower_eq_empty {s : String} (h : pyLower s = "") : s = "" := by
  cases s with
  | mk data =>
    cases data with
    | nil => rfl
    | cons c cs =>
      exfalso
      have hd := congrArg String.data h
      simp [pyLower] at hd

/-- Canonical form of the ARGUS lookup as a function of the lowered rating
(used to show the lookup is determined by the lowered rating alone). -/
def argusCI (l : String) : ℤ :=
  if l = "" then 10
  else
    match argusTable.find? (fun kv =>
        pyLower kv.1 = (if l = "no" then "none" else l)) with
    | some kv => kv.2
    | none => 10

theorem ratingKey_lower (r : String) (h : r ≠ "") :
    pyLower (ratingKey r) = (if pyLower r = "no" then "none" else pyLower r) := by
  unfold ratingKey
  by_cases hno : pyLower r = "no"
  · rw [if_pos (Or.inl hno), if_pos hno]
    rfl
  · have hne : pyLower r ≠ "" := fun hh => h (pyLower_eq_empty hh)
    rw [if_neg (by push_neg; exact ⟨hno, hne⟩), if_neg hno]

theorem lookup_argus_cases {k : String} {v : ℤ}
    (h : tableLookup k argusTable = some v) :
    (k = "Platinum Elite" ∧ v = 0) ∨ (k = "Platinum" ∧ v = 2) ∨
    (k = "Gold Plus" ∧ v = 4) ∨ (k = "Gold" ∧ v = 6) ∨ (k = "None" ∧ v = 10) := by
  unfold argusTable at h
  simp only [tableLookup] at h
  split_ifs at h with h1 h2 h3 h4 h5 <;> simp_all

theorem argusLookup_lower (r : String) : argusLookup (some r) = argusCI (pyLower r) := by
  by_cases h0 : r = ""
  · subst h0
    rfl
  · have hl0 : pyLower r ≠ "" := fun hh => h0 (pyLower_eq_empty hh)
    have hkey := ratingKey_lower r h0
    show (if r = "" then 10
      else
        match tableLookup (ratingKey r) argusTable with
        | some v => v
        | none =>
          match argusTable.find? (fun kv => pyLower kv.1 = pyLower (ratingKey r)) with
          | some kv => kv.2
          | none => 10) = argusCI (pyLower r)
    rw [if_neg h0]
    unfold argusCI
    rw [if_neg hl0]
    simp only [hkey]
    rcases hlk : tableLookup (ratingKey r) argusTable with _ | v
    · rfl
    · rcases lookup_argus_cases hlk with ⟨hk, hv⟩ | ⟨hk, hv⟩ | ⟨hk, hv⟩ | ⟨hk, hv⟩ | ⟨hk, hv⟩ <;>
        subst hv <;>
        rw [show (if pyLower r = "no" then "none" else pyLower r) =
            pyLower (ratingKey r) from hkey.symm, hk] <;>
        rfl

/-- C9 counterexample: the WYVERN fallback scan also does substring matching
and the exact dict lookup is tried first, so the case variant `"wingman"` of
`"Wingman"` changes the certification penalty: `"Wingman"` hits the exact
table entry (4) while `"wingman"` substring-matches the earlier key
`"Wingman PRO"` (2).  CSF is therefore not invariant under case variants. -/
theorem claim_C9_counterexample :
    certificationScore none (some "Wingman") = 4 ∧
    certificationScore none (some "wingman") = 2 := by
  constructor <;> rfl

/-- C9 (amended): the ARGUS half of the certification score is genuinely
case-insensitive — any two ARGUS rating strings with the same lowering give
the same CSF against any fixed WYVERN rating — and absent, `"No"` or empty
ratings map to the maximal penalty 10.  (The WYVERN half is only
case-insensitive up to its substring fallback, see the counterexample.) -/
theorem claim_C9_amended :
    (∀ r1 r2 : String, ∀ w : Option String, pyLower r1 = pyLower r2 →
      certificationScore (some r1) w = certificationScore (some r2) w) ∧
    certificationScore none none = 10 ∧
    certificationScore (some "No") none = 10 ∧
    certificationScore (some "") none = 10 := by
  refine ⟨?_, by rfl, by rfl, by rfl⟩
  intro r1 r2 w h
  unfold certificationScore
  rw [argusLookup_lower r1, argusLookup_lower r2, h]

/-- C9 witness: the amended claim applied to the concrete case pair
`"GOLD"`/`"gold"`. -/
theorem claim_C9_witness :
    pyLower "GOLD" = pyLower "gold" ∧
    certificationScore (some "GOLD") none = certificationScore (some "gold") none :=
  ⟨by rfl, claim_C9_amended.1 "GOLD" "gold" none (by rfl)⟩

/-! ## Claim C8: confidence monotonicity -/

/-- C8: with the operator and tail scores held fixed in `[0, 100]` (hence a
non-negative `raw_combined`), the trust score `50 + 0.5 * raw * CS(age)` is
monotonically non-decreasing in the operator age over `age ≥ 0`, and strictly
increasing whenever `raw_combined > 0`. -/
theorem claim_C8_confidence_monotone (os ts a b : ℝ)
    (hos0 : 0 ≤ os) (hos1 : os ≤ 100) (hts0 : 0 ≤ ts) (hts1 : ts ≤ 100)
    (ha : 0 ≤ a) :
    (a ≤ b → trustScoreValue os ts a ≤ trustScoreValue os ts b) ∧
    (a < b → 0 < 0.6 * os + 0.4 * ts →
      trustScoreValue os ts a < trustScoreValue os ts b) := by
  constructor
  · intro hab
    have hraw : (0 : ℝ) ≤ 0.5 * (0.6 * os + 0.4 * ts) := by linarith
    unfold trustScoreValue confidenceScore
    have hexp : Real.exp (-0.384 * b) ≤ Real.exp (-0.384 * a) :=
      Real.exp_le_exp.mpr (by linarith)
    have hmul := mul_le_mul_of_nonneg_left
      (by linarith : (1 - Real.exp (-0.384 * a)) ≤ (1 - Real.exp (-0.384 * b))) hraw
    linarith
  · intro hab hrawpos
    have hraw : (0 : ℝ) < 0.5 * (0.6 * os + 0.4 * ts) := by linarith
    unfold trustScoreValue confidenceScore
    have hexp : Real.exp (-0.384 * b) < Real.exp (-0.384 * a) :=
      Real.exp_lt_exp.mpr (by linarith)
    have hmul := mul_lt_mul_of_pos_left
      (by linarith : (1 - Real.exp (-0.384 * a)) < (1 - Real.exp (-0.384 * b))) hraw
    linarith

/-- C8 witness: the monotonicity theorem applied at `OS = TS = 60`,
`a = 0`, `b = 1`. -/
theorem claim_C8_witness :
    (0 : ℝ) ≤ 60 ∧
    (((0 : ℝ) ≤ 1 → trustScoreValue 60 60 0 ≤ trustScoreValue 60 60 1) ∧
     ((0 : ℝ) < 1 → (0 : ℝ) < 0.6 * 60 + 0.4 * 60 →
       trustScoreValue 60 60 0 < trustScoreValue 60 60 1)) :=
  ⟨by norm_num, claim_C8_confidence_monotone 60 60 0 1 (by norm_num) (by norm_num)
    (by norm_num) (by norm_num) (by norm_num)⟩

/-! ## Claim C10: trust score bounds -/

theorem roundHalfEven_ge_floor (y : ℝ) : ⌊y⌋ ≤ roundHalfEven y := by
  unfold roundHalfEven
  split_ifs with h1 h2 h3
  · exact le_rfl
  · exact Int.floor_le_ceil y
  · exact le_rfl
  · omega

theorem roundHalfEven_le_ceil (y : ℝ) : roundHalfEven y ≤ ⌈y⌉ := by
  unfold roundHalfEven
  split_ifs with h1 h2 h3
  · exact Int.floor_le_ceil y
  · exact le_rfl
  · exact Int.floor_le_ceil y
  · have hf : Int.fract y = 1 / 2 := le_antisymm (not_lt.mp h2) (not_lt.mp h1)
    have hy : y = (⌊y⌋ : ℝ) + 1 / 2 := by
      rw [← hf]
      exact (Int.floor_add_fract y).symm
    have hhalf : ⌈(1 / 2 : ℝ)⌉ = 1 := by
      rw [Int.ceil_eq_iff]
      constructor <;> norm_num
    have h2 : ⌈y⌉ = ⌈(⌊y⌋ : ℝ) + 1 / 2⌉ := congrArg Int.ceil hy
    have h3 : ⌈(⌊y⌋ : ℝ) + 1 / 2⌉ = ⌊y⌋ + 1 := by
      rw [show (⌊y⌋ : ℝ) + 1 / 2 = 1 / 2 + (⌊y⌋ : ℝ) by ring,
        Int.ceil_add_int, hhalf]
      omega
    omega

theorem roundTo_bounds {t : ℝ} (h1 : 50 ≤ t) (h2 : t ≤ 100) :
    50 ≤ roundTo 2 t ∧ roundTo 2 t ≤ 100 := by
  unfold roundTo
  have hge : (5000 : ℤ) ≤ roundHalfEven (t * 10 ^ 2) := by
    have hfl : (5000 : ℤ) ≤ ⌊t * 10 ^ 2⌋ := Int.le_floor.mpr (by push_cast; nlinarith)
    have := roundHalfEven_ge_floor (t * 10 ^ 2)
    omega
  have hle : roundHalfEven (t * 10 ^ 2) ≤ 10000 := by
    have hcl : ⌈t * 10 ^ 2⌉ ≤ (10000 : ℤ) := Int.ceil_le.mpr (by push_cast; nlinarith)
    have := roundHalfEven_le_ceil (t * 10 ^ 2)
    omega
  constructor
  · rw [le_div_iff (by norm_num : (0 : ℝ) < 10 ^ (2 : ℕ))]
    calc (50 : ℝ) * 10 ^ 2 = 5000 := by norm_num
      _ ≤ _ := by exact_mod_cast hge
  · rw [div_le_iff (by norm_num : (0 : ℝ) < 10 ^ (2 : ℕ))]
    calc ((roundHalfEven (t * 10 ^ 2) : ℤ) : ℝ) ≤ 10000 := by exact_mod_cast hle
      _ = (100 : ℝ) * 10 ^ 2 := by norm_num

theorem calculateFleetScore_bounds (now : ℤ) (data : FleetScoreData) :
    0 ≤ calculateFleetScore now data ∧ calculateFleetScore now data ≤ 100 := by
  unfold calculateFleetScore
  exact ⟨clamp100_nonneg _, clamp100_le _⟩

theorem calculateTailScore_bounds (now : ℤ) (data : TailScoreData) :
    0 ≤ calculateTailScore now data ∧ calculateTailScore now data ≤ 100 := by
  unfold calculateTailScore
  exact ⟨clamp100_nonneg _, clamp100_le _⟩

theorem confidenceScore_bounds {age : ℝ} (h : 0 ≤ age) :
    0 ≤ confidenceScore age ∧ confidenceScore age ≤ 1 := by
  unfold confidenceScore
  constructor
  · have hexp : Real.exp (-0.384 * age) ≤ 1 := by
      rw [← Real.exp_zero]
      exact Real.exp_le_exp.mpr (by nlinarith)
    linarith
  · have := Real.exp_pos (-0.384 * age)
    linarith

/-- C10: for every input with non-negative operator age, the `trust_score`
returned by `calculate_trust_score` lies in `[50, 100]` — both operator and
tail scores are clamped to `[0, 100]` before combination, so `raw_combined`
is non-negative, and the confidence multiplier lies in `[0, 1)`. -/
theorem claim_C10_trust_bounds (now : ℤ) (fleet : FleetScoreData)
    (tail : TailScoreData) (hage : 0 ≤ fleet.operator_age_years) :
    50 ≤ (calculateTrustScore now fleet tail).trust_score ∧
    (calculateTrustScore now fleet tail).trust_score ≤ 100 := by
  obtain ⟨hos0, hos1⟩ := calculateFleetScore_bounds now fleet
  obtain ⟨hts0, hts1⟩ := calculateTailScore_bounds now tail
  obtain ⟨hcs0, hcs1⟩ := confidenceScore_bounds hage
  set os := calculateFleetScore now fleet with hos
  set ts := calculateTailScore now tail with hts
  have hraw0 : (0 : ℝ) ≤ 0.6 * os + 0.4 * ts := by linarith
  have hraw1 : 0.6 * os + 0.4 * ts ≤ 100 := by linarith
  have hprod : (0.6 * os + 0.4 * ts) * confidenceScore fleet.operator_age_years ≤
      0.6 * os + 0.4 * ts :=
    mul_le_of_le_one_right hraw0 hcs1
  have hprod0 : 0 ≤ (0.6 * os + 0.4 * ts) * confidenceScore fleet.operator_age_years :=
    mul_nonneg hraw0 hcs0
  have h1 : 50 ≤ trustScoreValue os ts fleet.operator_age_years := by
    unfold trustScoreValue
    nlinarith
  have h2 : trustScoreValue os ts fleet.operator_age_years ≤ 100 := by
    unfold trustScoreValue
    nlinarith
  exact roundTo_bounds h1 h2

/-- Concrete tail input used by the C10 witness. -/
def c10Tail : TailScoreData :=
  { aircraft_age_years := 3, operator_name := "Op", registered_owner := "Op LLC",
    tail_events := [], fractional_owner := false }

/-- C10 witness: the bound applied at the zero-evidence operator input. -/
theorem claim_C10_witness :
    0 ≤ (zeroEvidenceFleet "Op" 1).operator_age_years ∧
    (50 ≤ (calculateTrustScore 0 (zeroEvidenceFleet "Op" 1) c10Tail).trust_score ∧
     (calculateTrustScore 0 (zeroEvidenceFleet "Op" 1) c10Tail).trust_score ≤ 100) :=
  ⟨le_rfl, claim_C10_trust_bounds 0 (zeroEvidenceFleet "Op" 1) c10Tail le_rfl⟩

end GtjScraper
